import Mathlib

/-!
A shallow embedding, in Lean 4, of the PyPI crawler client in
`src/av/pypi_crawler.py`.

Modelling conventions:

* JSON values decoded by `response.json()` are modelled by the inductive
  type `Json`.  Python's `None` is `Json.null`; JSON numbers appearing in
  the claims are integers, so numbers are modelled as `Int`.
* HTTP traffic is abstracted: each operation takes, beside its real
  parameters, an `HttpOutcome` describing what the single HTTP request of
  that operation produced (a 2xx body, a non-2xx status on which
  `response.raise_for_status()` raised `httpx.HTTPStatusError`, or an
  `httpx.RequestError`, i.e. a network-level failure).
* Python exceptions are modelled by the `PyExc` type and fallible code by
  `Except PyExc`.  Dynamic attribute errors (e.g. calling `.get` on a
  non-dict) are modelled faithfully: they are `PyExc.attributeError`,
  which the `except (KeyError, TypeError, ValueError)` clause of
  `get_package_info` does not catch.
* `dict.get`, truthiness, `list(...)`, `str.split()`, `str.strip()` and
  the `or` operator are modelled by `pyGet`, `truthy`, `pyList`,
  `pySplitWs`, `pyStrip` and explicit conditionals, following CPython
  semantics on the `Json` universe.
* The tokenisation done by the standard library `html.parser.HTMLParser`
  (which the repository subclasses but does not implement) is abstracted:
  the parser's handler methods are modelled as a step function over a
  stream of `HtmlEvent`s, exactly as `HTMLParser.feed` would deliver them.
-/

/-- JSON values as decoded by `response.json()`.  `null` doubles as
Python's `None`. Objects are association lists with distinct keys (Python
dicts). -/
inductive Json where
  | null : Json
  | bool (b : Bool) : Json
  | num (n : Int) : Json
  | str (s : String) : Json
  | arr (xs : List Json) : Json
  | obj (fields : List (String × Json)) : Json

/-- Python exceptions that the crawler code can raise. -/
inductive PyExc where
  | httpStatusError (status : Nat) : PyExc
  | runtimeError (msg : String) : PyExc
  | attributeError (msg : String) : PyExc
  | typeError (msg : String) : PyExc
  | valueError (msg : String) : PyExc
  | keyError (msg : String) : PyExc
deriving DecidableEq

/-- `type(x).__name__` for our `Json` universe. -/
def pyTypeName : Json → String
  | Json.null => "NoneType"
  | Json.bool _ => "bool"
  | Json.num _ => "int"
  | Json.str _ => "str"
  | Json.arr _ => "list"
  | Json.obj _ => "dict"

/-- First binding of key `k` in an association list (Python dicts decoded
from JSON have unique keys). -/
def lookupJ (fields : List (String × Json)) (k : String) : Option Json :=
  (fields.find? (fun p => p.1 == k)).map (fun p => p.2)

/-- Python `x.get(k, default)`: only dicts have `.get`; otherwise an
`AttributeError` is raised.  A key present with value `null` returns
`null`, not the default. -/
def pyGet (j : Json) (k : String) (default : Json) : Except PyExc Json :=
  match j with
  | Json.obj fields => Except.ok ((lookupJ fields k).getD default)
  | _ =>
      Except.error (PyExc.attributeError
        ("'" ++ pyTypeName j ++ "' object has no attribute 'get'"))

/-- Python `x.keys()`: only dicts have `.keys`. -/
def pyKeys (j : Json) : Except PyExc (List String) :=
  match j with
  | Json.obj fields => Except.ok (fields.map (fun p => p.1))
  | _ =>
      Except.error (PyExc.attributeError
        ("'" ++ pyTypeName j ++ "' object has no attribute 'keys'"))

/-- Python truthiness on the `Json` universe. -/
def truthy : Json → Bool
  | Json.null => false
  | Json.bool b => b
  | Json.num n => n != 0
  | Json.str s => s != ""
  | Json.arr xs => !xs.isEmpty
  | Json.obj fields => !fields.isEmpty

/-- Python `list(x)` (also iteration order of a `for` loop): lists copy,
strings iterate characters, dicts iterate keys; non-iterables raise
`TypeError`. -/
def pyList (j : Json) : Except PyExc (List Json) :=
  match j with
  | Json.arr xs => Except.ok xs
  | Json.str s => Except.ok (s.data.map (fun c => Json.str c.toString))
  | Json.obj fields => Except.ok (fields.map (fun p => Json.str p.1))
  | _ =>
      Except.error (PyExc.typeError
        ("'" ++ pyTypeName j ++ "' object is not iterable"))

/-- Python's `<` on strings, on the underlying character lists:
lexicographic by Unicode code point, a strict proper prefix being
smaller. -/
def pyListLt : List Char → List Char → Bool
  | [], [] => false
  | [], _ :: _ => true
  | _ :: _, [] => false
  | a :: as, b :: bs =>
      if a.toNat < b.toNat then true
      else if b.toNat < a.toNat then false
      else pyListLt as bs

/-- Python's `<=` on strings: `a <= b` iff not `b < a`. -/
def pyStrLeB (a b : String) : Bool := !(pyListLt b.data a.data)

/-- `sorted(keys, reverse=True)` on strings: a stable sort into
lexicographically descending code-point order. -/
def pySortedRev (l : List String) : List String :=
  List.insertionSort (fun a b => pyStrLeB b a = true) l

/-- `str(e)` for a modelled exception. -/
def pyExcStr : PyExc → String
  | PyExc.httpStatusError status => "HTTP status error " ++ toString status
  | PyExc.runtimeError msg => msg
  | PyExc.attributeError msg => msg
  | PyExc.typeError msg => msg
  | PyExc.valueError msg => msg
  | PyExc.keyError msg => msg

/-- Outcome of the single HTTP request an operation performs.
`statusError s` means the response had non-2xx status `s`, on which
`raise_for_status()` raised; `success body` is a 2xx response with decoded
JSON body `body`; `requestError msg` is an `httpx.RequestError` (network
failure) with message `msg`. -/
inductive HttpOutcome where
  | success (body : Json) : HttpOutcome
  | statusError (status : Nat) : HttpOutcome
  | requestError (msg : String) : HttpOutcome

/-- `PyPICrawler.get_package_json` (src/av/pypi_crawler.py:237-273).
Returns the decoded body on 2xx, `Json.null` (Python `None`) on 404,
re-raises other `HTTPStatusError`s, and wraps a network failure into a
`RuntimeError` naming the package. The `version` argument only selects
the request URL and does not affect outcome handling. -/
def get_package_json (package_name : String) (version : Option String)
    (outcome : HttpOutcome) : Except PyExc Json :=
  match outcome with
  | HttpOutcome.success body => Except.ok body
  | HttpOutcome.statusError status =>
      if status == 404 then Except.ok Json.null
      else Except.error (PyExc.httpStatusError status)
  | HttpOutcome.requestError msg =>
      Except.error (PyExc.runtimeError
        ("Failed to fetch package info for " ++ package_name ++ ": " ++ msg))

/-- The `PackageInfo` dataclass (src/av/pypi_crawler.py:11-24).  Fields
that Python stores without type checks are modelled as `Json`. -/
structure PackageInfo where
  name : Json
  version : Json
  summary : Json
  description : Json
  author : Json
  license : Json
  homepage_url : Json
  project_url : Json
  requires_python : Json
  dependencies : List Json

/-- Version selection in `PackageInfo.from_json` (lines 38-45): if
`releases` is truthy, the reverse-sorted keys' head, else
`info.get("version", "")`. -/
def fj_version (info releases : Json) : Except PyExc Json :=
  if truthy releases then do
    let keys ← pyKeys releases
    match pySortedRev keys with
    | v :: _ => Except.ok (Json.str v)
    | [] => pyGet info "version" (Json.str "")
  else pyGet info "version" (Json.str "")

/-- Dependency extraction in `PackageInfo.from_json` (lines 47-49). -/
def fj_dependencies (info : Json) : Except PyExc (List Json) := do
  let requires_dist ← pyGet info "requires_dist" (Json.arr [])
  if truthy requires_dist then pyList requires_dist else Except.ok []

/-- Homepage resolution in `PackageInfo.from_json` (lines 51-53):
`project_urls.get("Homepage") or info.get("home_page")` with
`project_urls = info.get("project_urls", {}) or {}`. -/
def fj_homepage (info : Json) : Except PyExc Json := do
  let pu ← pyGet info "project_urls" (Json.obj [])
  let project_urls := if truthy pu then pu else Json.obj []
  let hp ← pyGet project_urls "Homepage" Json.null
  if truthy hp then Except.ok hp else pyGet info "home_page" Json.null

/-- `str(x)` for the name interpolated into the synthesized project URL.
The claims only exercise string names; scalars follow CPython, containers
are rendered with Python-like repr brackets. -/
def pyStr : Json → String
  | Json.null => "None"
  | Json.bool b => if b then "True" else "False"
  | Json.num n => toString n
  | Json.str s => s
  | Json.arr _ => "[...]"
  | Json.obj _ => "{...}"

/-- The remaining constructor-argument evaluation of
`PackageInfo.from_json` (lines 55-66), given the already-computed
`version`, `dependencies` and `homepage_url`.  The synthesized project URL
hard-codes `https://pypi.org` (line 63). -/
def fj_rest (info version : Json) (dependencies : List Json)
    (homepage_url : Json) : Except PyExc PackageInfo := do
  let name ← pyGet info "name" (Json.str "")
  let summary ← pyGet info "summary" Json.null
  let description ← pyGet info "description" Json.null
  let author ← pyGet info "author" Json.null
  let license ← pyGet info "license" Json.null
  let purl ← pyGet info "project_url" Json.null
  let project_url ←
    if truthy purl then Except.ok purl
    else do
      let n ← pyGet info "name" (Json.str "")
      Except.ok (Json.str ("https://pypi.org/project/" ++ pyStr n ++ "/"))
  let requires_python ← pyGet info "requires_python" Json.null
  Except.ok
    { name := name, version := version, summary := summary,
      description := description, author := author, license := license,
      homepage_url := homepage_url, project_url := project_url,
      requires_python := requires_python, dependencies := dependencies }

/-- `PackageInfo.from_json` (src/av/pypi_crawler.py:26-66), sequencing the
statements of the source in order. -/
def PackageInfo.from_json (data : Json) : Except PyExc PackageInfo := do
  let info ← pyGet data "info" (Json.obj [])
  let releases ← pyGet data "releases" (Json.obj [])
  let version ← fj_version info releases
  let dependencies ← fj_dependencies info
  let homepage_url ← fj_homepage info
  fj_rest info version dependencies homepage_url

/-- Does the `except (KeyError, TypeError, ValueError)` clause of
`get_package_info` catch this exception? -/
def isParseCatch : PyExc → Bool
  | PyExc.keyError _ => true
  | PyExc.typeError _ => true
  | PyExc.valueError _ => true
  | _ => false

/-- `PyPICrawler.get_package_info` (src/av/pypi_crawler.py:275-297).
`None` from `get_package_json` (absent package) becomes `none`; a caught
parse exception is re-raised as `ValueError` naming the package; any other
exception (e.g. `AttributeError`) propagates unchanged. -/
def get_package_info (package_name : String) (version : Option String)
    (outcome : HttpOutcome) : Except PyExc (Option PackageInfo) := do
  let json_data ← get_package_json package_name version outcome
  match json_data with
  | Json.null => Except.ok none
  | data =>
      match PackageInfo.from_json data with
      | Except.ok pi => Except.ok (some pi)
      | Except.error e =>
          if isParseCatch e then
            Except.error (PyExc.valueError
              ("Failed to parse package info for " ++ package_name ++ ": "
                ++ pyExcStr e))
          else Except.error e

/-- `PyPICrawler.get_package_metadata` (src/av/pypi_crawler.py:312-329).
Returns Python `None` (here `Json.null`) when the package is absent, else
`json_data.get("info", {})`. -/
def get_package_metadata (package_name : String) (version : Option String)
    (outcome : HttpOutcome) : Except PyExc Json := do
  let json_data ← get_package_json package_name version outcome
  match json_data with
  | Json.null => Except.ok Json.null
  | data => pyGet data "info" (Json.obj [])

/-- `PyPICrawler.get_package_dependencies` (src/av/pypi_crawler.py:410-431). -/
def get_package_dependencies (package_name : String)
    (version : Option String) (outcome : HttpOutcome) :
    Except PyExc (List Json) := do
  let metadata ← get_package_metadata package_name version outcome
  match metadata with
  | Json.null => Except.ok []
  | md => do
      let requires_dist ← pyGet md "requires_dist" Json.null
      match requires_dist with
      | Json.null => Except.ok []
      | Json.arr xs => Except.ok xs
      | _ => Except.ok []

/-- `PyPICrawler.get_package_versions` (src/av/pypi_crawler.py:552-569). -/
def get_package_versions (package_name : String) (outcome : HttpOutcome) :
    Except PyExc (List String) := do
  let json_data ← get_package_json package_name none outcome
  match json_data with
  | Json.null => Except.ok []
  | data => do
      let releases ← pyGet data "releases" (Json.obj [])
      let keys ← pyKeys releases
      Except.ok (pySortedRev keys)

/-- The project-level metadata body of claim C1. -/
def demoProjectBody : Json :=
  Json.obj
    [("info", Json.obj [("name", Json.str "demo"), ("version", Json.str "9.9")]),
     ("releases",
       Json.obj
         [("1.0", Json.arr []), ("2.0", Json.arr []), ("10.0", Json.arr [])])]

/-- C1: on the metadata response with releases 1.0, 2.0, 10.0,
`get_package_versions("demo")` returns exactly `["2.0", "10.0", "1.0"]`,
the release-map keys sorted descending by plain lexicographic string
order, not numeric order. -/
theorem c1_get_package_versions_lexicographic :
    get_package_versions "demo" (HttpOutcome.success demoProjectBody)
      = Except.ok ["2.0", "10.0", "1.0"] := by
  rfl

theorem pyListLt_asymm :
    ∀ as bs : List Char, pyListLt as bs = true → pyListLt bs as = false := by
  intro as
  induction as with
  | nil =>
      intro bs h
      cases bs <;> rfl
  | cons a as ih =>
      intro bs h
      cases bs with
      | nil => simp [pyListLt] at h
      | cons b bs =>
          simp only [pyListLt] at h ⊢
          split_ifs at h ⊢ <;>
            first
            | rfl
            | omega
            | exact ih bs h
            | simp_all

theorem pyListLt_false_trans :
    ∀ as bs cs : List Char, pyListLt as bs = false → pyListLt bs cs = false →
      pyListLt as cs = false := by
  intro as
  induction as with
  | nil =>
      intro bs cs h1 h2
      cases bs with
      | nil =>
          cases cs with
          | nil => rfl
          | cons c cs => simp [pyListLt] at h2
      | cons b bs => simp [pyListLt] at h1
  | cons a as ih =>
      intro bs cs h1 h2
      cases bs with
      | nil =>
          cases cs with
          | nil => rfl
          | cons c cs => simp [pyListLt] at h2
      | cons b bs =>
          cases cs with
          | nil => rfl
          | cons c cs =>
              simp only [pyListLt] at h1 h2 ⊢
              split_ifs at h1 h2 ⊢ <;>
                first
                | rfl
                | omega
                | exact ih bs cs h1 h2
                | simp_all

/-- The descending relation used by `pySortedRev` is total. -/
instance : IsTotal String (fun a b => pyStrLeB b a = true) where
  total := by
    intro a b
    simp only [pyStrLeB, Bool.not_eq_true']
    cases h : pyListLt a.data b.data with
    | false => exact Or.inl rfl
    | true => exact Or.inr (pyListLt_asymm _ _ h)

/-- The descending relation used by `pySortedRev` is transitive. -/
instance : IsTrans String (fun a b => pyStrLeB b a = true) where
  trans := by
    intro a b c h1 h2
    simp only [pyStrLeB, Bool.not_eq_true'] at h1 h2 ⊢
    exact pyListLt_false_trans _ _ _ h1 h2

/-- `pySortedRev` output is sorted non-increasingly. -/
theorem pySortedRev_sorted (l : List String) :
    List.Sorted (fun a b => pyStrLeB b a = true) (pySortedRev l) :=
  List.sorted_insertionSort _ l

/-- `pySortedRev` permutes its input, so it preserves length. -/
theorem pySortedRev_length (l : List String) :
    (pySortedRev l).length = l.length :=
  (List.perm_insertionSort _ l).length_eq

/-- Whatever happens in the later field evaluations, a successful
`fj_rest` stores the already-computed `version` unchanged. -/
theorem fj_rest_version (info v : Json) (deps : List Json) (hp : Json)
    (pi : PackageInfo) (h : fj_rest info v deps hp = Except.ok pi) :
    pi.version = v := by
  cases info with
  | obj fields =>
      simp only [fj_rest, pyGet, Bind.bind, Except.bind] at h
      split at h <;> (injection h with h2; rw [← h2])
  | null => simp [fj_rest, pyGet, Bind.bind, Except.bind] at h
  | bool b => simp [fj_rest, pyGet, Bind.bind, Except.bind] at h
  | num n => simp [fj_rest, pyGet, Bind.bind, Except.bind] at h
  | str s => simp [fj_rest, pyGet, Bind.bind, Except.bind] at h
  | arr xs => simp [fj_rest, pyGet, Bind.bind, Except.bind] at h

/-- When the body has a release map whose reverse-sorted keys start with
`v`, a successfully parsed `PackageInfo` carries version `v`. -/
theorem from_json_version (bfs fs : List (String × Json)) (pi : PackageInfo)
    (v : String) (rest : List String)
    (hrel : lookupJ bfs "releases" = some (Json.obj fs))
    (hsort : pySortedRev (fs.map (fun p => p.1)) = v :: rest)
    (hok : PackageInfo.from_json (Json.obj bfs) = Except.ok pi) :
    pi.version = Json.str v := by
  have hne : fs.isEmpty = false := by
    cases fs with
    | nil => simp [pySortedRev, List.insertionSort] at hsort
    | cons p ps => rfl
  simp only [PackageInfo.from_json, pyGet, hrel, Option.getD_some, fj_version,
    truthy, hne, Bool.not_false, if_pos, pyKeys, hsort, Bind.bind,
    Except.bind] at hok
  cases hdep : fj_dependencies ((lookupJ bfs "info").getD (Json.obj [])) with
  | error e => rw [hdep] at hok; simp at hok
  | ok deps =>
      rw [hdep] at hok
      simp only [Except.bind] at hok
      cases hhp : fj_homepage ((lookupJ bfs "info").getD (Json.obj [])) with
      | error e => rw [hhp] at hok; simp at hok
      | ok hp =>
          rw [hhp] at hok
          simp only [Except.bind] at hok
          exact fj_rest_version _ _ _ _ _ hok

/-- C2: for every project-level JSON body with a non-empty release map,
`get_package_versions` returns a non-empty list sorted non-increasingly in
lexicographic order, and its head is the version selected by
`get_package_info` without an explicit version. -/
theorem c2_versions_sorted_and_head (package_name : String)
    (bfs fs : List (String × Json)) (pi : PackageInfo)
    (hrel : lookupJ bfs "releases" = some (Json.obj fs))
    (hne : fs ≠ [])
    (hinfo : get_package_info package_name none
        (HttpOutcome.success (Json.obj bfs)) = Except.ok (some pi)) :
    ∃ v rest,
      get_package_versions package_name (HttpOutcome.success (Json.obj bfs))
          = Except.ok (v :: rest)
      ∧ List.Sorted (fun a b => pyStrLeB b a = true) (v :: rest)
      ∧ pi.version = Json.str v := by
  have hkeys : (pySortedRev (fs.map (fun p => p.1))).length ≠ 0 := by
    rw [pySortedRev_length, List.length_map]
    intro hlen
    exact hne (List.length_eq_zero.mp hlen)
  obtain ⟨v, rest, hsort⟩ :
      ∃ v rest, pySortedRev (fs.map (fun p => p.1)) = v :: rest := by
    cases hvr : pySortedRev (fs.map (fun p => p.1)) with
    | nil => exact absurd (by rw [hvr]; rfl) hkeys
    | cons v rest => exact ⟨v, rest, rfl⟩
  have hfj : PackageInfo.from_json (Json.obj bfs) = Except.ok pi := by
    simp only [get_package_info, get_package_json, Bind.bind,
      Except.bind] at hinfo
    cases hfj : PackageInfo.from_json (Json.obj bfs) with
    | ok pi2 =>
        rw [hfj] at hinfo
        simp only [Except.ok.injEq, Option.some.injEq] at hinfo
        rw [hinfo]
    | error e =>
        rw [hfj] at hinfo
        by_cases hc : isParseCatch e = true
        · simp [hc] at hinfo
        · simp [hc] at hinfo
  refine ⟨v, rest, ?_, ?_, from_json_version bfs fs pi v rest hrel hsort hfj⟩
  · simp only [get_package_versions, get_package_json, Bind.bind,
      Except.bind, pyGet, hrel, Option.getD_some, pyKeys, hsort]
  · rw [← hsort]
    exact pySortedRev_sorted _

/-- The `PackageInfo` parsed from the C1/C2 demo body. -/
def demoPackageInfo : PackageInfo :=
  { name := Json.str "demo", version := Json.str "2.0", summary := Json.null,
    description := Json.null, author := Json.null, license := Json.null,
    homepage_url := Json.null,
    project_url := Json.str "https://pypi.org/project/demo/",
    requires_python := Json.null, dependencies := [] }

/-- Witness for C2 at the demo body. -/
theorem c2_versions_sorted_and_head_witness :
    ∃ v rest,
      get_package_versions "demo" (HttpOutcome.success demoProjectBody)
          = Except.ok (v :: rest)
      ∧ List.Sorted (fun a b => pyStrLeB b a = true) (v :: rest)
      ∧ demoPackageInfo.version = Json.str v :=
  c2_versions_sorted_and_head "demo"
    [("info", Json.obj [("name", Json.str "demo"), ("version", Json.str "9.9")]),
     ("releases",
       Json.obj
         [("1.0", Json.arr []), ("2.0", Json.arr []), ("10.0", Json.arr [])])]
    [("1.0", Json.arr []), ("2.0", Json.arr []), ("10.0", Json.arr [])]
    demoPackageInfo (by rfl) (by simp) (by rfl)

/-- C4: `get_package_json` maps 404 to Python `None` (absent, not an
error), re-raises any other non-2xx status as an `HTTPStatusError`
carrying that status, and turns a network-level failure into a
`RuntimeError` whose message names the package and wraps the underlying
cause. -/
theorem c4_get_package_json_classification :
    (∀ (package_name : String) (version : Option String),
        get_package_json package_name version (HttpOutcome.statusError 404)
          = Except.ok Json.null)
    ∧ (∀ (package_name : String) (version : Option String) (status : Nat),
        status ≠ 404 →
        get_package_json package_name version (HttpOutcome.statusError status)
          = Except.error (PyExc.httpStatusError status))
    ∧ (∀ (package_name : String) (version : Option String) (cause : String),
        get_package_json package_name version (HttpOutcome.requestError cause)
          = Except.error (PyExc.runtimeError
              ("Failed to fetch package info for " ++ package_name ++ ": "
                ++ cause))) := by
  refine ⟨fun _ _ => rfl, fun n v status hs => ?_, fun _ _ _ => rfl⟩
  simp [get_package_json, hs]

/-- Witness for C4 at a concrete non-404 status. -/
theorem c4_get_package_json_classification_witness :
    get_package_json "demo" none (HttpOutcome.statusError 500)
      = Except.error (PyExc.httpStatusError 500) :=
  c4_get_package_json_classification.2.1 "demo" none 500 (by decide)

/-- A 2xx body whose `info` value is a plain string rather than an
object: the parse then fails with an `AttributeError`. -/
def badInfoBody : Json := Json.obj [("info", Json.str "oops")]

/-- C5 counterexample: on a 2xx body whose `info` value is not an object,
`get_package_info` does not raise the wrapping parse `ValueError` naming
the package; it propagates a bare `AttributeError` (uncaught by the
`except (KeyError, TypeError, ValueError)` clause), whose message does not
contain the package name. -/
theorem c5_nondict_info_not_wrapped :
    get_package_info "demo" none (HttpOutcome.success badInfoBody)
      = Except.error
          (PyExc.attributeError "'str' object has no attribute 'get'")
    ∧ ∀ msg : String,
        (Except.error
            (PyExc.attributeError "'str' object has no attribute 'get'") :
              Except PyExc (Option PackageInfo))
          ≠ Except.error (PyExc.valueError msg) := by
  refine ⟨by rfl, fun msg h => ?_⟩
  simp at h

/-- C5 amended: when parsing a non-null 2xx body raises `KeyError`,
`TypeError` or `ValueError`, `get_package_info` re-raises it as a
`ValueError` carrying the package name and the underlying cause, and a 404
still yields the distinct absent result `none`.  (A body whose parsing
raises `AttributeError` — e.g. a non-object `info` — instead propagates
that error unwrapped.) -/
theorem c5_parse_error_wrapping (package_name : String)
    (version : Option String) (body : Json) (e : PyExc)
    (hb : body ≠ Json.null)
    (hfj : PackageInfo.from_json body = Except.error e)
    (hc : isParseCatch e = true) :
    get_package_info package_name version (HttpOutcome.success body)
      = Except.error (PyExc.valueError
          ("Failed to parse package info for " ++ package_name ++ ": "
            ++ pyExcStr e))
    ∧ get_package_info package_name version (HttpOutcome.statusError 404)
        = Except.ok none := by
  refine ⟨?_, by rfl⟩
  cases body <;>
    first
    | exact absurd rfl hb
    | simp [get_package_info, get_package_json, Bind.bind, Except.bind,
        hfj, hc]

/-- A 2xx body with a truthy, non-iterable `requires_dist`. -/
def badRequiresDistBody : Json :=
  Json.obj
    [("info",
      Json.obj [("name", Json.str "demo"), ("requires_dist", Json.num 5)])]

/-- Witness for the amended C5 at a concrete malformed body. -/
theorem c5_parse_error_wrapping_witness :
    get_package_info "demo" none (HttpOutcome.success badRequiresDistBody)
      = Except.error (PyExc.valueError
          ("Failed to parse package info for " ++ "demo" ++ ": "
            ++ pyExcStr (PyExc.typeError "'int' object is not iterable")))
    ∧ get_package_info "demo" none (HttpOutcome.statusError 404)
        = Except.ok none :=
  c5_parse_error_wrapping "demo" none badRequiresDistBody
    (PyExc.typeError "'int' object is not iterable") (by simp [badRequiresDistBody])
    (by rfl) (by rfl)

/-- `PyPICrawler.BASE_URL` (src/av/pypi_crawler.py:189). -/
def BASE_URL : String := "https://pypi.org"

/-- `self.base_url = base_url or self.BASE_URL` in `PyPICrawler.__init__`
(line 209): `None` and the empty string fall back to the default. -/
def crawlerBaseUrl (base_url : Option String) : String :=
  match base_url with
  | some s => if s == "" then BASE_URL else s
  | none => BASE_URL

/-- Modelled from the spec sentence for refinement comparison only: the
project URL the spec prescribes, `{registryBase}/project/{name}/`. -/
def specProjectUrl (registryBase name : String) : String :=
  registryBase ++ "/project/" ++ name ++ "/"

/-- If `get_package_info` on a 2xx object body returns a `PackageInfo`,
that record came from `PackageInfo.from_json` on the body. -/
theorem get_package_info_ok_from_json (package_name : String)
    (version : Option String) (bfs : List (String × Json))
    (pi : PackageInfo)
    (hok : get_package_info package_name version
        (HttpOutcome.success (Json.obj bfs)) = Except.ok (some pi)) :
    PackageInfo.from_json (Json.obj bfs) = Except.ok pi := by
  simp only [get_package_info, get_package_json, Bind.bind,
    Except.bind] at hok
  cases hfj : PackageInfo.from_json (Json.obj bfs) with
  | ok pi2 =>
      rw [hfj] at hok
      simp only [Except.ok.injEq, Option.some.injEq] at hok
      rw [hok]
  | error e =>
      rw [hfj] at hok
      by_cases hc : isParseCatch e = true
      · simp [hc] at hok
      · simp [hc] at hok

/-- A successful `PackageInfo.from_json` run on an object body went
through `fj_rest` on the body's `info` value. -/
theorem from_json_ok_fj_rest (bfs : List (String × Json)) (pi : PackageInfo)
    (hok : PackageInfo.from_json (Json.obj bfs) = Except.ok pi) :
    ∃ v deps hp,
      fj_rest ((lookupJ bfs "info").getD (Json.obj [])) v deps hp
        = Except.ok pi := by
  simp only [PackageInfo.from_json, pyGet, Bind.bind, Except.bind] at hok
  cases hv : fj_version ((lookupJ bfs "info").getD (Json.obj []))
      ((lookupJ bfs "releases").getD (Json.obj [])) with
  | error e => rw [hv] at hok; simp at hok
  | ok v =>
      rw [hv] at hok
      simp only [Except.bind] at hok
      cases hd : fj_dependencies ((lookupJ bfs "info").getD (Json.obj [])) with
      | error e => rw [hd] at hok; simp at hok
      | ok deps =>
          rw [hd] at hok
          simp only [Except.bind] at hok
          cases hh : fj_homepage ((lookupJ bfs "info").getD (Json.obj [])) with
          | error e => rw [hh] at hok; simp at hok
          | ok hp =>
              rw [hh] at hok
              simp only [Except.bind] at hok
              exact ⟨v, deps, hp, hok⟩

/-- When `info` has no truthy `project_url`, a successful `fj_rest`
synthesizes the URL from the hard-coded default registry base. -/
theorem fj_rest_project_url (ifs : List (String × Json)) (v : Json)
    (deps : List Json) (hp : Json) (pi : PackageInfo)
    (hpu : truthy ((lookupJ ifs "project_url").getD Json.null) = false)
    (h : fj_rest (Json.obj ifs) v deps hp = Except.ok pi) :
    pi.project_url
      = Json.str ("https://pypi.org/project/"
          ++ pyStr ((lookupJ ifs "name").getD (Json.str "")) ++ "/") := by
  simp only [fj_rest, pyGet, Bind.bind, Except.bind, hpu, Bool.false_eq_true,
    if_false] at h
  injection h with h2
  rw [← h2]

/-- C6 amended: whenever the `info` object of a 2xx body has no truthy
`project_url` field and `get_package_info` succeeds, the synthesized
`project_url` is `https://pypi.org/project/{name}/` with the hard-coded
default registry base — it does not vary with the configured
`base_url`. -/
theorem c6_project_url_default_base (package_name : String)
    (version : Option String) (base_url : Option String)
    (bfs ifs : List (String × Json)) (pi : PackageInfo)
    (hinfo : lookupJ bfs "info" = some (Json.obj ifs))
    (hpu : truthy ((lookupJ ifs "project_url").getD Json.null) = false)
    (hok : get_package_info package_name version
        (HttpOutcome.success (Json.obj bfs)) = Except.ok (some pi)) :
    pi.project_url
      = Json.str (specProjectUrl BASE_URL
          (pyStr ((lookupJ ifs "name").getD (Json.str "")))) := by
  have hfj := get_package_info_ok_from_json package_name version bfs pi hok
  obtain ⟨v, deps, hp, hfr⟩ := from_json_ok_fj_rest bfs pi hfj
  rw [hinfo] at hfr
  simp only [Option.getD_some] at hfr
  exact fj_rest_project_url ifs v deps hp pi hpu hfr

/-- A 2xx body whose `info` has a name but no `project_url`. -/
def noProjectUrlBody : Json :=
  Json.obj [("info", Json.obj [("name", Json.str "demo")])]

/-- The `PackageInfo` parsed from `noProjectUrlBody`. -/
def noProjectUrlInfo : PackageInfo :=
  { name := Json.str "demo", version := Json.str "", summary := Json.null,
    description := Json.null, author := Json.null, license := Json.null,
    homepage_url := Json.null,
    project_url := Json.str "https://pypi.org/project/demo/",
    requires_python := Json.null, dependencies := [] }

/-- C6 counterexample: with a configured base URL of
`https://example.com`, the synthesized `project_url` still uses
`https://pypi.org`, so it differs from
`{configured base}/project/{name}/`. -/
theorem c6_project_url_ignores_configured_base :
    get_package_info "demo" none (HttpOutcome.success noProjectUrlBody)
      = Except.ok (some noProjectUrlInfo)
    ∧ crawlerBaseUrl (some "https://example.com") = "https://example.com"
    ∧ noProjectUrlInfo.project_url
        ≠ Json.str (specProjectUrl
            (crawlerBaseUrl (some "https://example.com")) "demo") := by
  refine ⟨by rfl, by rfl, ?_⟩
  intro h
  injection h with h2
  simp [specProjectUrl, crawlerBaseUrl, BASE_URL, noProjectUrlInfo] at h2

/-- Witness for the amended C6 at `noProjectUrlBody`. -/
theorem c6_project_url_default_base_witness :
    noProjectUrlInfo.project_url
      = Json.str (specProjectUrl BASE_URL
          (pyStr ((lookupJ [("name", Json.str "demo")] "name").getD
            (Json.str "")))) :=
  c6_project_url_default_base "demo" none (some "https://example.com")
    [("info", Json.obj [("name", Json.str "demo")])]
    [("name", Json.str "demo")] noProjectUrlInfo (by rfl) (by rfl) (by rfl)

/-- C8: `get_package_dependencies` returns the `requires_dist` list when
the package is present and that field is a list, and returns the empty
sequence — rather than propagating absence — when the package is absent
(404) or the field is missing or null. -/
theorem c8_dependencies_absence_swallowed :
    (∀ (package_name : String) (version : Option String),
        get_package_dependencies package_name version
          (HttpOutcome.statusError 404) = Except.ok [])
    ∧ (∀ (package_name : String) (version : Option String)
        (bfs ifs : List (String × Json)),
        lookupJ bfs "info" = some (Json.obj ifs) →
        lookupJ ifs "requires_dist" = none
          ∨ lookupJ ifs "requires_dist" = some Json.null →
        get_package_dependencies package_name version
          (HttpOutcome.success (Json.obj bfs)) = Except.ok [])
    ∧ (∀ (package_name : String) (version : Option String)
        (bfs ifs : List (String × Json)) (xs : List Json),
        lookupJ bfs "info" = some (Json.obj ifs) →
        lookupJ ifs "requires_dist" = some (Json.arr xs) →
        get_package_dependencies package_name version
          (HttpOutcome.success (Json.obj bfs)) = Except.ok xs) := by
  refine ⟨fun _ _ => rfl, fun n v bfs ifs hinfo hrd => ?_,
    fun n v bfs ifs xs hinfo hrd => ?_⟩
  · cases hrd with
    | inl h =>
        simp [get_package_dependencies, get_package_metadata,
          get_package_json, Bind.bind, Except.bind, pyGet, hinfo, h]
    | inr h =>
        simp [get_package_dependencies, get_package_metadata,
          get_package_json, Bind.bind, Except.bind, pyGet, hinfo, h]
  · simp [get_package_dependencies, get_package_metadata, get_package_json,
      Bind.bind, Except.bind, pyGet, hinfo, hrd]

/-- Witness for C8 at concrete bodies. -/
theorem c8_dependencies_absence_swallowed_witness :
    get_package_dependencies "demo" none
      (HttpOutcome.success
        (Json.obj
          [("info",
            Json.obj [("requires_dist",
              Json.arr [Json.str "requests>=2.0"])])]))
      = Except.ok [Json.str "requests>=2.0"] :=
  c8_dependencies_absence_swallowed.2.2 "demo" none
    [("info",
      Json.obj [("requires_dist", Json.arr [Json.str "requests>=2.0"])])]
    [("requires_dist", Json.arr [Json.str "requests>=2.0"])]
    [Json.str "requests>=2.0"] (by rfl) (by rfl)

/-- The `SearchResult` dataclass (src/av/pypi_crawler.py:69-76).  `score`
is never populated by the code. -/
structure SearchResult where
  name : String
  version : String
  summary : Option String
  score : Option Int
deriving DecidableEq

/-- The `self.current_package` dict of `PyPISearchParser`: created with
`name` and `href`, optionally later gaining `version` and `summary`. -/
structure CurrentPackage where
  name : String
  href : String
  version : Option String
  summary : Option String
deriving DecidableEq

/-- The mutable state of `PyPISearchParser`
(src/av/pypi_crawler.py:97-103). -/
structure SPState where
  results : List SearchResult
  current_package : Option CurrentPackage
  in_package_section : Bool
  current_tag : Option String
  current_data : List String
deriving DecidableEq

/-- `PyPISearchParser.__init__` state. -/
def initSPState : SPState :=
  { results := [], current_package := none, in_package_section := false,
    current_tag := none, current_data := [] }

/-- One event delivered by the standard library `HTMLParser` tokenizer to
the handler methods; attribute values may be `none` for valueless
attributes, as in `html.parser`. -/
inductive HtmlEvent where
  | startTag (tag : String) (attrs : List (String × Option String)) : HtmlEvent
  | textData (s : String) : HtmlEvent
  | endTag (tag : String) : HtmlEvent

/-- `dict(attrs)` lookup: last binding of a key wins; the outer `Option`
is key presence, the inner one the (possibly missing) attribute value. -/
def attrGet (attrs : List (String × Option String)) (k : String) :
    Option (Option String) :=
  ((attrs.reverse).find? (fun p => p.1 == k)).map (fun p => p.2)

/-- Python `str.split()` with no argument: split on whitespace runs,
dropping empty pieces.  `acc` is the reversed current token. -/
def pySplitWsAux : List Char → List Char → List String
  | [], acc => if acc.isEmpty then [] else [String.mk acc.reverse]
  | c :: rest, acc =>
      if c.isWhitespace then
        if acc.isEmpty then pySplitWsAux rest []
        else String.mk acc.reverse :: pySplitWsAux rest []
      else pySplitWsAux rest (c :: acc)

/-- Python `str.split()` with no argument. -/
def pySplitWs (s : String) : List String := pySplitWsAux s.data []

/-- Python `str.strip()`: remove leading and trailing whitespace. -/
def pyStrip (s : String) : String :=
  String.mk
    (((s.data.dropWhile Char.isWhitespace).reverse.dropWhile
        Char.isWhitespace).reverse)

/-- `attrs_dict.get("class", "").split()` (lines 123 and 129): a class
attribute present without a value is Python `None`, and `None.split()`
raises `AttributeError`. -/
def pyClassesOrErr (attrs : List (String × Option String)) :
    Except PyExc (List String) :=
  match attrGet attrs "class" with
  | some (some s) => Except.ok (pySplitWs s)
  | some none =>
      Except.error
        (PyExc.attributeError "'NoneType' object has no attribute 'split'")
  | none => Except.ok (pySplitWs "")

/-- `re.search(r"/project/([^/]+)/", href)` (line 116): the first
occurrence of `/project/` followed by a non-empty slash-free segment and a
closing slash; returns the segment. -/
def findProjectNameAux : List Char → Option String
  | [] => none
  | c :: rest =>
      if ("/project/".data).isPrefixOf (c :: rest) then
        let after := (c :: rest).drop 9
        let seg := after.takeWhile (fun ch => ch != '/')
        if seg.isEmpty then findProjectNameAux rest
        else if seg.length < after.length then some (String.mk seg)
        else findProjectNameAux rest
      else findProjectNameAux rest

/-- String-level wrapper for `findProjectNameAux`. -/
def findProjectName (href : String) : Option String :=
  findProjectNameAux href.data

/-- The version pattern after the leading digit run: `\.\d+` then the
optional `(?:\.\d+)?` and `(?:[a-zA-Z0-9]+)?` parts, all greedy. -/
def versionTailMatch (r1 : List Char) : Option (List Char) :=
  match r1 with
  | '.' :: r2 =>
      let d2 := r2.takeWhile Char.isDigit
      if d2.isEmpty then none
      else
        let r3 := r2.drop d2.length
        let p3 :=
          match r3 with
          | '.' :: r3b =>
              let d3 := r3b.takeWhile Char.isDigit
              if d3.isEmpty then (([] : List Char), r3)
              else ('.' :: d3, r3b.drop d3.length)
          | _ => (([] : List Char), r3)
        let aln := p3.2.takeWhile (fun c => c.isAlpha || c.isDigit)
        some ('.' :: (d2 ++ p3.1 ++ aln))
  | _ => none

/-- An anchored match of the numeric-version pattern
`(\d+\.\d+(?:\.\d+)?(?:[a-zA-Z0-9]+)?)` (lines 143 and 395) at the head of
the character list: a non-empty greedy digit run followed by the tail
pattern. -/
def versionMatchAt (cs : List Char) : Option String :=
  let d1 := cs.takeWhile Char.isDigit
  if d1.isEmpty then none
  else (versionTailMatch (cs.drop d1.length)).map (fun t => String.mk (d1 ++ t))

/-- `re.search` of the version pattern: leftmost anchored match. -/
def findVersionAux : List Char → Option String
  | [] => none
  | c :: rest =>
      match versionMatchAt (c :: rest) with
      | some v => some v
      | none => findVersionAux rest

/-- Version extraction from element text (line 143). -/
def findVersion (s : String) : Option String := findVersionAux s.data

/-- The span start-tag branch (lines 121-125): a version-bearing element
inside a package section resets `current_data`. -/
def spanStage (st : SPState) (tag : String)
    (attrs : List (String × Option String)) : Except PyExc SPState :=
  if tag == "span" && st.in_package_section then do
    let classes ← pyClassesOrErr attrs
    if classes.contains "package-snippet__version"
        || classes.contains "version" then
      Except.ok { st with current_data := [] }
    else Except.ok st
  else Except.ok st

/-- The p start-tag branch (lines 127-131): a description-bearing element
inside a package section resets `current_data`. -/
def pStage (st : SPState) (tag : String)
    (attrs : List (String × Option String)) : Except PyExc SPState :=
  if tag == "p" && st.in_package_section then do
    let classes ← pyClassesOrErr attrs
    if classes.contains "package-snippet__description"
        || classes.contains "description" then
      Except.ok { st with current_data := [] }
    else Except.ok st
  else Except.ok st

/-- `PyPISearchParser`'s span and p start-tag branches in sequence. -/
def spanPBranch (st : SPState) (tag : String)
    (attrs : List (String × Option String)) : Except PyExc SPState := do
  let st1 ← spanStage st tag attrs
  pStage st1 tag attrs

/-- `PyPISearchParser.handle_starttag` (src/av/pypi_crawler.py:105-131). -/
def handle_starttag (st : SPState) (tag : String)
    (attrs : List (String × Option String)) : Except PyExc SPState :=
  let st0 := { st with current_tag := some tag }
  if tag == "a" && (attrGet attrs "class").isSome then
    let classes :=
      match attrGet attrs "class" with
      | some (some s) => if s == "" then [] else pySplitWs s
      | _ => []
    if classes.contains "package-snippet" || classes.contains "snippet" then
      let st1 := { st0 with in_package_section := true }
      match attrGet attrs "href" with
      | some none =>
          Except.error
            (PyExc.typeError "expected string or bytes-like object")
      | hrefEntry =>
          let href :=
            match hrefEntry with
            | some (some s) => s
            | _ => ""
          match findProjectName href with
          | some nm =>
              Except.ok
                { st1 with
                  current_package :=
                    some { name := nm, href := href, version := none,
                           summary := none } }
          | none => Except.ok st1
    else spanPBranch st0 tag attrs
  else spanPBranch st0 tag attrs

/-- `PyPISearchParser.handle_data` (src/av/pypi_crawler.py:133-149);
`data = data.strip()` is written inline as `pyStrip dataRaw`. -/
def handle_data (st : SPState) (dataRaw : String) : SPState :=
  if !st.in_package_section then st
  else if pyStrip dataRaw == "" then st
  else if st.current_tag == some "span" then
    match findVersion (pyStrip dataRaw), st.current_package with
    | some v, some cp =>
        { st with current_package := some { cp with version := some v } }
    | _, _ => st
  else if st.current_tag == some "p" then
    match st.current_package with
    | some cp =>
        match cp.summary with
        | none =>
            { st with
              current_package :=
                some { cp with summary := some (pyStrip dataRaw) } }
        | some _ => st
    | none => st
  else st

/-- `PyPISearchParser.handle_endtag` (src/av/pypi_crawler.py:151-163):
inside a package section a closing `a` emits the accumulated result
(version defaulting to `""`, via `cp.get("version", "")`) and leaves the
section; `current_tag` and `current_data` are always cleared.  The
sequential mutations of the source are flattened into one record
update per branch. -/
def handle_endtag (st : SPState) (tag : String) : SPState :=
  if tag == "a" && st.in_package_section then
    match st.current_package with
    | some cp =>
        { st with
          results :=
            st.results ++
              [{ name := cp.name, version := cp.version.getD "",
                 summary := cp.summary, score := none }],
          current_package := none,
          in_package_section := false,
          current_tag := none, current_data := [] }
    | none =>
        { st with in_package_section := false, current_tag := none,
                  current_data := [] }
  else { st with current_tag := none, current_data := [] }

/-- Dispatch of one tokenizer event to the handler methods. -/
def processEvent (st : SPState) : HtmlEvent → Except PyExc SPState
  | HtmlEvent.startTag tag attrs => handle_starttag st tag attrs
  | HtmlEvent.textData s => Except.ok (handle_data st s)
  | HtmlEvent.endTag tag => Except.ok (handle_endtag st tag)

/-- `parser.feed(response.text)`: run the handlers over the tokenizer's
event stream starting from the freshly-constructed parser state. -/
def runSearchParser (events : List HtmlEvent) : Except PyExc SPState :=
  events.foldlM processEvent initSPState

/-- Python `list[:k]` for an `int` bound: a non-negative bound takes a
prefix, a negative bound drops that many elements from the end. -/
def pySliceTo (l : List α) (k : Int) : List α :=
  if 0 ≤ k then l.take k.toNat else l.take (l.length - (-k).toNat)

/-- Python `s[i:j]` on characters (both bounds clamped). -/
def sliceChars (cs : List Char) (i j : Nat) : List Char :=
  (cs.take j).drop i

/-- One match of the fallback anchor pattern
`href="/project/([^/"]+)/[^"]*"[^>]*>([^<]+)</a>` (line 380), anchored at
the head: returns group 1, group 2 and the match length.  Each greedy
class excludes its follower, so the regex is deterministic. -/
def matchAnchorAt (cs : List Char) : Option (String × String × Nat) :=
  if ("href=\x22/project/".data).isPrefixOf cs then
    let r1 := cs.drop 15
    let nm := r1.takeWhile (fun c => c != '/' && c != '\x22')
    if nm.isEmpty then none
    else
      match r1.drop nm.length with
      | '\x22' :: _ => none
      | '/' :: r3 =>
          let q1 := r3.takeWhile (fun c => c != '\x22')
          match r3.drop q1.length with
          | '\x22' :: r5 =>
              let q2 := r5.takeWhile (fun c => c != '>')
              match r5.drop q2.length with
              | '>' :: r7 =>
                  let disp := r7.takeWhile (fun c => c != '<')
                  if disp.isEmpty then none
                  else if ("</a>".data).isPrefixOf (r7.drop disp.length) then
                    some (String.mk nm, String.mk disp,
                      15 + nm.length + 1 + q1.length + 1 + q2.length + 1
                        + disp.length + 4)
                  else none
              | _ => none
          | _ => none
      | _ => none
  else none

/-- `re.finditer` of the anchor pattern: scan left to right, emitting
non-overlapping matches with their start and end offsets.  The fuel is the
remaining length, enough since every step consumes at least one
character. -/
def findAnchorsAux : Nat → List Char → Nat → List (Nat × Nat × String × String)
  | 0, _, _ => []
  | _, [], _ => []
  | fuel + 1, c :: rest, pos =>
      match matchAnchorAt (c :: rest) with
      | some (nm, disp, len) =>
          (pos, pos + len, nm, disp) ::
            findAnchorsAux fuel ((c :: rest).drop len) (pos + len)
      | none => findAnchorsAux fuel rest (pos + 1)

/-- All fallback anchor matches in the page text. -/
def findAnchors (html : String) : List (Nat × Nat × String × String) :=
  findAnchorsAux html.data.length html.data 0

/-- The non-greedy `.*?` of the window pattern (line 395): starting at the
head, find the nearest version match not separated by a newline (`.` does
not match newlines). -/
def tryGapVersion : List Char → Option String
  | [] => none
  | c :: rest =>
      match versionMatchAt (c :: rest) with
      | some v => some v
      | none => if c == '\n' then none else tryGapVersion rest

/-- `re.search(rf"{re.escape(name)}.*?(version)", window)` (lines
394-397): leftmost occurrence of the literal name followed, on the same
line, by a version-shaped substring. -/
def findNameVersionAux (nm : List Char) : List Char → Option String
  | [] => none
  | c :: rest =>
      match
        (if nm.isPrefixOf (c :: rest) then
          tryGapVersion ((c :: rest).drop nm.length)
        else none) with
      | some v => some v
      | none => findNameVersionAux nm rest

/-- The loop body of `_fallback_search_parse` (lines 384-407): skip names
already seen, search a 200-character window past the match for a version
(defaulting to the literal "unknown"), append, and break once the result
count reaches `limit` — note the check happens after the append.  The
`display_name` of group 2 is computed by the source but never used. -/
def fbLoop (html : String) (limit : Int) :
    List (Nat × Nat × String × String) → List String → List SearchResult →
      List SearchResult
  | [], _, results => results
  | (s, e, nm, _disp) :: rest, seen, results =>
      if seen.contains nm then fbLoop html limit rest seen results
      else
        let window := sliceChars html.data s (e + 200)
        let version :=
          match findNameVersionAux nm.data window with
          | some v => v
          | none => "unknown"
        let results2 :=
          results ++ [{ name := nm, version := version, summary := none,
                        score := none }]
        if limit ≤ (results2.length : Int) then results2
        else fbLoop html limit rest (nm :: seen) results2

/-- `PyPICrawler._fallback_search_parse` (src/av/pypi_crawler.py:376-408). -/
def fallback_search_parse (html : String) (limit : Int) : List SearchResult :=
  fbLoop html limit (findAnchors html) [] []

/-- A 2xx search response: the raw page text together with its
tokenization by the standard library `HTMLParser` (the structured parser
consumes the events, the fallback scans the text). -/
structure HtmlBody where
  text : String
  events : List HtmlEvent

/-- Outcome of the search HTTP request. -/
inductive SearchOutcome where
  | success (body : HtmlBody) : SearchOutcome
  | statusError (status : Nat) : SearchOutcome
  | requestError (msg : String) : SearchOutcome

/-- `PyPICrawler.search_packages` (src/av/pypi_crawler.py:331-374): slice
the structured parser's results to `limit`, fall back to the permissive
pattern scan when that slice is empty, re-raise `HTTPStatusError`
unchanged (only `RequestError` is caught) and wrap network failures. -/
def search_packages (query : String) (limit : Int) (outcome : SearchOutcome) :
    Except PyExc (List SearchResult) :=
  match outcome with
  | SearchOutcome.success body => do
      let st ← runSearchParser body.events
      let results := pySliceTo st.results limit
      Except.ok
        (if results.isEmpty then fallback_search_parse body.text limit
         else results)
  | SearchOutcome.statusError status =>
      Except.error (PyExc.httpStatusError status)
  | SearchOutcome.requestError msg =>
      Except.error (PyExc.runtimeError ("Failed to search packages: " ++ msg))

/-- A search page containing one plain project link that the structured
parser does not recognize (no `package-snippet` class). -/
def demoSearchBody : HtmlBody :=
  { text := "<a href=\x22/project/demo/\x22>demo</a>",
    events :=
      [HtmlEvent.startTag "a" [("href", some "/project/demo/")],
       HtmlEvent.textData "demo",
       HtmlEvent.endTag "a"] }

/-- C3 evaluated at the failing input: with `limit = 0` and a body
containing one project link, `search_packages` returns a one-element list,
not the empty list: the fallback loop appends a result before checking the
limit. -/
theorem c3_limit_zero_not_empty :
    search_packages "q" 0 (SearchOutcome.success demoSearchBody)
      = Except.ok
          [{ name := "demo", version := "unknown", summary := none,
             score := none }]
    ∧ search_packages "q" 0 (SearchOutcome.success demoSearchBody)
        ≠ Except.ok [] := by
  refine ⟨by rfl, fun h => ?_⟩
  rw [show search_packages "q" 0 (SearchOutcome.success demoSearchBody)
      = Except.ok
          [{ name := "demo", version := "unknown", summary := none,
             score := none }] from rfl] at h
  simp at h

/-- Does the string start with an ASCII digit?  Every structured-parser
version does; the literal "unknown" does not. -/
def startsDigit (s : String) : Bool :=
  match s.data with
  | [] => false
  | c :: _ => c.isDigit

/-- A version match always starts with a digit of its leading `\d+`
run. -/
theorem versionMatchAt_startsDigit (cs : List Char) (v : String)
    (h : versionMatchAt cs = some v) : startsDigit v = true := by
  unfold versionMatchAt at h
  cases hd1 : cs.takeWhile Char.isDigit with
  | nil => rw [hd1] at h; simp at h
  | cons d ds =>
      rw [hd1] at h
      simp only [List.isEmpty_cons, Bool.false_eq_true, if_false,
        Option.map_eq_some'] at h
      obtain ⟨t, _, hv⟩ := h
      have hdig : d.isDigit = true := by
        have hm : d ∈ cs.takeWhile Char.isDigit := by
          rw [hd1]; exact List.mem_cons_self _ _
        exact List.mem_takeWhile_imp hm
      rw [← hv]
      simpa [startsDigit] using hdig

/-- Any result of the version search starts with a digit. -/
theorem findVersionAux_startsDigit :
    ∀ cs v, findVersionAux cs = some v → startsDigit v = true := by
  intro cs
  induction cs with
  | nil => intro v h; simp [findVersionAux] at h
  | cons c rest ih =>
      intro v h
      simp only [findVersionAux] at h
      cases hm : versionMatchAt (c :: rest) with
      | some w =>
          rw [hm] at h
          injection h with h2
          rw [← h2]
          exact versionMatchAt_startsDigit _ _ hm
      | none =>
          rw [hm] at h
          exact ih v h

/-- The shapes a structured-parser version string can take: empty (the
`cp.get("version", "")` default) or digit-initial (a regex match). -/
def goodVer (v : String) : Prop := v = "" ∨ startsDigit v = true

theorem goodVer_ne_unknown (v : String) (h : goodVer v) : v ≠ "unknown" := by
  cases h with
  | inl h => rw [h]; decide
  | inr h =>
      intro he
      rw [he] at h
      exact absurd h (by decide)

/-- Invariant of the structured parser: every emitted result has a good
version, and any pending package's recorded version starts with a
digit. -/
def SPInv (st : SPState) : Prop :=
  (∀ r ∈ st.results, goodVer r.version) ∧
  (∀ cp, st.current_package = some cp →
    ∀ v, cp.version = some v → startsDigit v = true)

/-- `spanStage` only touches `current_data`. -/
theorem spanStage_fields (st : SPState) (tag : String)
    (attrs : List (String × Option String)) (st' : SPState)
    (h : spanStage st tag attrs = Except.ok st') :
    st'.results = st.results
      ∧ st'.current_package = st.current_package
      ∧ st'.in_package_section = st.in_package_section
      ∧ st'.current_tag = st.current_tag := by
  unfold spanStage at h
  by_cases h1 : (tag == "span" && st.in_package_section) = true
  · rw [if_pos h1] at h
    simp only [Bind.bind] at h
    cases hc : pyClassesOrErr attrs with
    | error e => rw [hc] at h; simp [Except.bind] at h
    | ok classes =>
        rw [hc] at h
        simp only [Except.bind] at h
        split at h <;> (injection h with h2; rw [← h2]; exact ⟨rfl, rfl, rfl, rfl⟩)
  · rw [if_neg h1] at h
    injection h with h2
    rw [← h2]
    exact ⟨rfl, rfl, rfl, rfl⟩

/-- `pStage` only touches `current_data`. -/
theorem pStage_fields (st : SPState) (tag : String)
    (attrs : List (String × Option String)) (st' : SPState)
    (h : pStage st tag attrs = Except.ok st') :
    st'.results = st.results
      ∧ st'.current_package = st.current_package
      ∧ st'.in_package_section = st.in_package_section
      ∧ st'.current_tag = st.current_tag := by
  unfold pStage at h
  by_cases h1 : (tag == "p" && st.in_package_section) = true
  · rw [if_pos h1] at h
    simp only [Bind.bind] at h
    cases hc : pyClassesOrErr attrs with
    | error e => rw [hc] at h; simp [Except.bind] at h
    | ok classes =>
        rw [hc] at h
        simp only [Except.bind] at h
        split at h <;> (injection h with h2; rw [← h2]; exact ⟨rfl, rfl, rfl, rfl⟩)
  · rw [if_neg h1] at h
    injection h with h2
    rw [← h2]
    exact ⟨rfl, rfl, rfl, rfl⟩

/-- `spanPBranch` only touches `current_data`. -/
theorem spanPBranch_fields (st : SPState) (tag : String)
    (attrs : List (String × Option String)) (st' : SPState)
    (h : spanPBranch st tag attrs = Except.ok st') :
    st'.results = st.results ∧ st'.current_package = st.current_package := by
  unfold spanPBranch at h
  simp only [Bind.bind] at h
  cases hs : spanStage st tag attrs with
  | error e => rw [hs] at h; simp [Except.bind] at h
  | ok st1 =>
      rw [hs] at h
      simp only [Except.bind] at h
      obtain ⟨hr1, hc1, _, _⟩ := spanStage_fields st tag attrs st1 hs
      obtain ⟨hr2, hc2, _, _⟩ := pStage_fields st1 tag attrs st' h
      exact ⟨hr2.trans hr1, hc2.trans hc1⟩

/-- `SPInv` transfers along equal `results` and `current_package`. -/
theorem SPInv_of_fields (st st' : SPState) (hi : SPInv st)
    (hr : st'.results = st.results)
    (hc : st'.current_package = st.current_package) : SPInv st' :=
  ⟨fun r hm => hi.1 r (hr ▸ hm), fun cp hce => hi.2 cp (hc ▸ hce)⟩

/-- `handle_starttag` preserves the parser invariant. -/
theorem handle_starttag_inv (st st' : SPState) (tag : String)
    (attrs : List (String × Option String)) (hi : SPInv st)
    (h : handle_starttag st tag attrs = Except.ok st') : SPInv st' := by
  unfold handle_starttag at h
  have hi0 : SPInv { st with current_tag := some tag } :=
    ⟨hi.1, hi.2⟩
  by_cases hA : (tag == "a" && (attrGet attrs "class").isSome) = true
  · rw [if_pos hA] at h
    repeat' first | split at h | (dsimp only [] at h)
    all_goals
      first
        | (injection h with h2
           subst h2
           first
             | exact ⟨hi.1, hi.2⟩
             | exact ⟨fun r hm => hi.1 r hm,
                 fun cp hce v hv =>
                   Option.noConfusion ((Option.some.inj hce).symm ▸ hv)⟩)
        | exact Except.noConfusion h
        | (obtain ⟨hr, hc⟩ := spanPBranch_fields _ tag attrs st' h
           exact SPInv_of_fields _ _ hi0 hr hc)
  · rw [if_neg hA] at h
    obtain ⟨hr, hc⟩ :=
      spanPBranch_fields { st with current_tag := some tag } tag attrs st' h
    exact SPInv_of_fields _ _ hi0 hr hc

/-- `handle_data` preserves the parser invariant: a recorded version comes
from the digit-initial version regex. -/
theorem handle_data_inv (st : SPState) (dataRaw : String) (hi : SPInv st) :
    SPInv (handle_data st dataRaw) := by
  unfold handle_data
  split
  · exact hi
  · split
    · exact hi
    · split
      · cases hfv : findVersion (pyStrip dataRaw) with
        | none =>
            cases hcp : st.current_package with
            | none => exact hi
            | some cp => exact hi
        | some v =>
            cases hcp : st.current_package with
            | none => exact hi
            | some cp =>
                refine ⟨hi.1, ?_⟩
                intro cp' hce v' hv'
                have h3 := Option.some.inj hce
                rw [← h3] at hv'
                have h4 := Option.some.inj hv'
                rw [← h4]
                exact findVersionAux_startsDigit _ v hfv
      · split
        · cases hcp : st.current_package with
          | none => exact hi
          | some cp =>
              dsimp only []
              cases hsum : cp.summary with
              | some s0 => exact hi
              | none =>
                  refine ⟨hi.1, ?_⟩
                  intro cp' hce v' hv'
                  have h3 := Option.some.inj hce
                  rw [← h3] at hv'
                  exact hi.2 cp hcp v' hv'
        · exact hi

/-- `handle_endtag` preserves the parser invariant: the emitted result's
version is either the `""` default or a recorded digit-initial match. -/
theorem handle_endtag_inv (st : SPState) (tag : String) (hi : SPInv st) :
    SPInv (handle_endtag st tag) := by
  unfold handle_endtag
  split
  · split
    · rename_i cp hcp
      constructor
      · intro r hm
        rcases List.mem_append.mp hm with hm1 | hm2
        · exact hi.1 r hm1
        · rw [List.mem_singleton.mp hm2]
          cases hv : cp.version with
          | none => exact Or.inl rfl
          | some v => exact Or.inr (hi.2 cp hcp v hv)
      · intro cp' hce
        exact Option.noConfusion hce
    · exact ⟨hi.1, hi.2⟩
  · exact ⟨hi.1, hi.2⟩

/-- One tokenizer event preserves the parser invariant. -/
theorem processEvent_inv (st st' : SPState) (e : HtmlEvent) (hi : SPInv st)
    (h : processEvent st e = Except.ok st') : SPInv st' := by
  cases e with
  | startTag tag attrs => exact handle_starttag_inv st st' tag attrs hi h
  | textData s =>
      injection h with h2
      rw [← h2]
      exact handle_data_inv st s hi
  | endTag tag =>
      injection h with h2
      rw [← h2]
      exact handle_endtag_inv st tag hi

/-- Running the parser from an invariant state keeps the invariant. -/
theorem foldlM_SPInv :
    ∀ (events : List HtmlEvent) (st : SPState), SPInv st →
      ∀ st', List.foldlM processEvent st events = Except.ok st' →
      SPInv st' := by
  intro events
  induction events with
  | nil =>
      intro st hi st' h
      simp only [List.foldlM_nil] at h
      have h2 : st = st' := by
        have h3 : (Except.ok st : Except PyExc SPState) = Except.ok st' := h
        exact Except.ok.inj h3
      rw [← h2]
      exact hi
  | cons e es ih =>
      intro st hi st' h
      rw [List.foldlM_cons] at h
      cases hp : processEvent st e with
      | error err => rw [hp] at h; simp [Bind.bind, Except.bind] at h
      | ok st1 =>
          rw [hp] at h
          simp only [Bind.bind, Except.bind] at h
          exact ih st1 (processEvent_inv st st1 e hi hp) st' h

/-- C10: no result emitted by the structured extractor ever carries the
"unknown" placeholder (its version is the empty-string default or a
digit-initial regex match); a recognized container with no version-bearing
element yields version `""`; the "unknown" placeholder is produced by the
fallback extractor. -/
theorem c10_structured_version_never_unknown :
    (∀ (events : List HtmlEvent) (st' : SPState),
        runSearchParser events = Except.ok st' →
        ∀ r ∈ st'.results, r.version ≠ "unknown")
    ∧ runSearchParser
        [HtmlEvent.startTag "a"
          [("class", some "package-snippet"),
           ("href", some "/project/demo/")],
         HtmlEvent.textData "demo",
         HtmlEvent.endTag "a"]
        = Except.ok
            { results := [{ name := "demo", version := "", summary := none,
                            score := none }],
              current_package := none, in_package_section := false,
              current_tag := none, current_data := [] }
    ∧ fallback_search_parse "<a href=\x22/project/demo/\x22>demo</a>" 20
        = [{ name := "demo", version := "unknown", summary := none,
             score := none }] := by
  refine ⟨?_, by rfl, by rfl⟩
  intro events st' h r hm
  have hinit : SPInv initSPState := by
    constructor
    · intro r hm2
      simp [initSPState] at hm2
    · intro cp hce
      simp [initSPState] at hce
  have hinv := foldlM_SPInv events initSPState hinit st' h
  exact goodVer_ne_unknown r.version (hinv.1 r hm)

/-- Witness for C10 at the concrete structured page. -/
theorem c10_structured_version_never_unknown_witness :
    ({ name := "demo", version := "", summary := none,
       score := none } : SearchResult).version ≠ "unknown" :=
  c10_structured_version_never_unknown.1
    [HtmlEvent.startTag "a"
      [("class", some "package-snippet"), ("href", some "/project/demo/")],
     HtmlEvent.textData "demo",
     HtmlEvent.endTag "a"]
    { results := [{ name := "demo", version := "", summary := none,
                    score := none }],
      current_package := none, in_package_section := false,
      current_tag := none, current_data := [] }
    (by rfl) _ (by simp)

/-- The `DistributionFile` dataclass (src/av/pypi_crawler.py:79-91); the
fields Python carries verbatim from the response are `Json`-typed. -/
structure DistributionFile where
  filename : Json
  url : Json
  packagetype : String
  size : Json
  upload_time : Json
  requires_python : Json
  hashes : Json
  yanked : Json
  yanked_reason : Json

/-- Python `str.endswith` via character lists. -/
def pyEndsWith (s suffix : String) : Bool :=
  suffix.data.isSuffixOf s.data

/-- `PyPICrawler._guess_packagetype` (src/av/pypi_crawler.py:541-550). -/
def guess_packagetype (filename : String) : String :=
  if pyEndsWith filename ".whl" then "bdist_wheel"
  else if pyEndsWith filename ".tar.gz" || pyEndsWith filename ".zip" then
    "sdist"
  else if pyEndsWith filename ".egg" then "bdist_egg"
  else "unknown"

/-- `_guess_packagetype(file_info.get("filename", ""))` on a dynamic
value: a non-string filename has no `.endswith`. -/
def pyGuessPackagetype (j : Json) : Except PyExc String :=
  match j with
  | Json.str s => Except.ok (guess_packagetype s)
  | _ =>
      Except.error (PyExc.attributeError
        ("'" ++ pyTypeName j ++ "' object has no attribute 'endswith'"))

/-- One match of the anchor pattern `<a[^>]*href="([^"]+)"[^>]*>(.+?)</a>`
(line 506) as delivered by `re.finditer`: the whole tag (group 0), the
href (group 1) and the link text (group 2). -/
structure HtmlAnchor where
  linkTag : String
  href : String
  text : String

/-- `re.search(r'data-requires-python="([^"]*)"', link_tag)` (lines
514-516): the first occurrence of the literal attribute prefix followed by
a quote-terminated value. -/
def findAttrValAux : List Char → Option String
  | [] => none
  | c :: rest =>
      if ("data-requires-python=\x22".data).isPrefixOf (c :: rest) then
        let after := (c :: rest).drop ("data-requires-python=\x22".data).length
        let v := after.takeWhile (fun ch => ch != '\x22')
        if v.length < after.length then some (String.mk v)
        else findAttrValAux rest
      else findAttrValAux rest

/-- The character class `[a-fA-F0-9]` of the hash-fragment pattern. -/
def isHexChar (c : Char) : Bool :=
  c.isDigit || (97 ≤ c.toNat && c.toNat ≤ 102) || (65 ≤ c.toNat && c.toNat ≤ 70)

/-- One alternative of `#(sha256|md5|sha1)=([a-fA-F0-9]+)` (line 522)
anchored after the `#`: the literal algorithm name, `=`, then a non-empty
greedy hex run. -/
def tryOneAlg (alg : String) (cs : List Char) : Option (String × String) :=
  if (alg.data ++ ['=']).isPrefixOf cs then
    let run := (cs.drop (alg.data.length + 1)).takeWhile isHexChar
    if run.isEmpty then none else some (alg, String.mk run)
  else none

/-- The alternation `sha256|md5|sha1`, tried in pattern order. -/
def tryAlgAt (cs : List Char) : Option (String × String) :=
  match tryOneAlg "sha256" cs with
  | some r => some r
  | none =>
      match tryOneAlg "md5" cs with
      | some r => some r
      | none => tryOneAlg "sha1" cs

/-- `re.search` of the hash-fragment pattern over the URL: at each `#`,
try the alternation; otherwise advance one character. -/
def findHashAux : List Char → Option (String × String)
  | [] => none
  | c :: rest =>
      match (if c == '#' then tryAlgAt rest else none) with
      | some r => some r
      | none => findHashAux rest

/-- The per-anchor body of `PyPICrawler._parse_html_distributions`
(src/av/pypi_crawler.py:508-537): filename from the stripped link text,
url with the fragment cut at the first `#`, package type guessed from the
filename, hash map from the URL fragment; size 0, yanked false. -/
def parseHtmlDistribution (a : HtmlAnchor) : DistributionFile :=
  { filename := Json.str (pyStrip a.text),
    url := Json.str (String.mk (a.href.data.takeWhile (fun c => c != '#'))),
    packagetype := guess_packagetype (pyStrip a.text),
    size := Json.num 0,
    upload_time := Json.null,
    requires_python :=
      match findAttrValAux a.linkTag.data with
      | some s => Json.str s
      | none => Json.null,
    hashes :=
      match findHashAux a.href.data with
      | some (alg, v) => Json.obj [(alg, Json.str v)]
      | none => Json.obj [],
    yanked := Json.bool false,
    yanked_reason := Json.null }

/-- `PyPICrawler._parse_html_distributions` (src/av/pypi_crawler.py:
502-539), with the `re.finditer` matches of the anchor pattern abstracted
as the input list. -/
def parse_html_distributions (anchors : List HtmlAnchor) :
    List DistributionFile :=
  anchors.map parseHtmlDistribution

/-- One iteration of the JSON-path loop of `get_package_distributions`
(src/av/pypi_crawler.py:474-485), with the source's field-access order. -/
def parseJsonFileEntry (fi : Json) : Except PyExc DistributionFile := do
  let filename ← pyGet fi "filename" (Json.str "")
  let url ← pyGet fi "url" (Json.str "")
  let fn2 ← pyGet fi "filename" (Json.str "")
  let ptype ← pyGuessPackagetype fn2
  let size ← pyGet fi "size" (Json.num 0)
  let upload_time ← pyGet fi "upload-time" Json.null
  let requires_python ← pyGet fi "requires-python" Json.null
  let hashes ← pyGet fi "hashes" (Json.obj [])
  let yanked ← pyGet fi "yanked" (Json.bool false)
  Except.ok
    { filename := filename, url := url, packagetype := ptype, size := size,
      upload_time := upload_time, requires_python := requires_python,
      hashes := hashes, yanked := yanked, yanked_reason := Json.null }

/-- A 2xx Simple-API response, as seen by the two paths: the decoded JSON
body (PEP 691 path) and the anchor matches of the HTML body (PEP 503
path). -/
structure SimpleBody where
  json : Json
  anchors : List HtmlAnchor

/-- Outcome of the Simple-API request. -/
inductive SimpleOutcome where
  | success (body : SimpleBody) : SimpleOutcome
  | statusError (status : Nat) : SimpleOutcome
  | requestError (msg : String) : SimpleOutcome

/-- `PyPICrawler.get_package_distributions` (src/av/pypi_crawler.py:
445-500): JSON path iterates `data.get("files", [])`, HTML path parses
anchors; 404 yields `none`, other statuses re-raise, network failures are
wrapped naming the package. -/
def get_package_distributions (package_name : String) (use_json : Bool)
    (outcome : SimpleOutcome) :
    Except PyExc (Option (List DistributionFile)) :=
  match outcome with
  | SimpleOutcome.success body =>
      if use_json then do
        let files ← pyGet body.json "files" (Json.arr [])
        let items ← pyList files
        let dfs ← items.mapM parseJsonFileEntry
        Except.ok (some dfs)
      else Except.ok (some (parse_html_distributions body.anchors))
  | SimpleOutcome.statusError status =>
      if status == 404 then Except.ok none
      else Except.error (PyExc.httpStatusError status)
  | SimpleOutcome.requestError msg =>
      Except.error (PyExc.runtimeError
        ("Failed to fetch distributions for " ++ package_name ++ ": " ++ msg))

theorem isPrefixOf_append_self :
    ∀ (l r : List Char), l.isPrefixOf (l ++ r) = true := by
  intro l r
  induction l with
  | nil => simp [List.isPrefixOf]
  | cons c cs ih => simp [List.isPrefixOf, ih]

theorem takeWhile_of_all :
    ∀ (l : List Char) (p : Char → Bool), (∀ c ∈ l, p c = true) →
      l.takeWhile p = l := by
  intro l p
  induction l with
  | nil => intro _; rfl
  | cons c cs ih =>
      intro hall
      have hc : p c = true := hall c (List.mem_cons_self _ _)
      simp [List.takeWhile, hc, ih fun d hd => hall d (List.mem_cons_of_mem _ hd)]

theorem findHashAux_append_skip :
    ∀ (base l : List Char), '#' ∉ base →
      findHashAux (base ++ l) = findHashAux l := by
  intro base
  induction base with
  | nil => intro l _; rfl
  | cons c bs ih =>
      intro l hnb
      have hc : (c == '#') = false := by
        simp only [beq_eq_false_iff_ne, ne_eq]
        intro he
        exact hnb (he ▸ List.mem_cons_self _ _)
      simp only [List.cons_append, findHashAux, hc, Bool.false_eq_true,
        if_false]
      exact ih l (fun hm => hnb (List.mem_cons_of_mem _ hm))

theorem takeWhile_append_hash :
    ∀ (base rest : List Char), '#' ∉ base →
      (base ++ '#' :: rest).takeWhile (fun c => c != '#') = base := by
  intro base
  induction base with
  | nil =>
      intro rest _
      simp [List.takeWhile]
  | cons c bs ih =>
      intro rest hnb
      have hc : (c != '#') = true := by
        simp only [bne_iff_ne, ne_eq]
        intro he
        exact hnb (he ▸ List.mem_cons_self _ _)
      simp only [List.cons_append, List.takeWhile, hc]
      exact congrArg (fun t => c :: t)
        (ih rest (fun hm => hnb (List.mem_cons_of_mem _ hm)))

theorem tryAlgAt_sha256 (hex : List Char) (hne : hex ≠ [])
    (hhex : ∀ c ∈ hex, isHexChar c = true) :
    tryAlgAt ("sha256=".data ++ hex) = some ("sha256", String.mk hex) := by
  have hp : ("sha256".data ++ ['='] : List Char) = "sha256=".data := by decide
  have hlen : ("sha256".data : List Char).length + 1
      = ("sha256=".data : List Char).length := by decide
  have h1 : tryOneAlg "sha256" ("sha256=".data ++ hex)
      = some ("sha256", String.mk hex) := by
    unfold tryOneAlg
    rw [hp, isPrefixOf_append_self, if_pos rfl, hlen,
      List.drop_left, takeWhile_of_all hex isHexChar hhex]
    have hne2 : hex.isEmpty = false := by
      cases hex with
      | nil => exact absurd rfl hne
      | cons c cs => rfl
    dsimp only []
    rw [hne2]
    rfl
  unfold tryAlgAt
  rw [h1]

/-- C7: an HTML file-index anchor whose href ends in a fragment
`#sha256=<hex>` (no other `#` in the URL, non-empty hex digest) yields a
`DistributionFile` whose hash map is exactly `{"sha256": <hex>}` and whose
url is the href with the fragment stripped. -/
theorem c7_html_hash_roundtrip (linkTag text : String) (base hex : List Char)
    (hbase : '#' ∉ base) (hne : hex ≠ [])
    (hhex : ∀ c ∈ hex, isHexChar c = true) :
    (parseHtmlDistribution
        { linkTag := linkTag,
          href := String.mk (base ++ '#' :: ("sha256=".data ++ hex)),
          text := text }).hashes
        = Json.obj [("sha256", Json.str (String.mk hex))]
    ∧ (parseHtmlDistribution
        { linkTag := linkTag,
          href := String.mk (base ++ '#' :: ("sha256=".data ++ hex)),
          text := text }).url
        = Json.str (String.mk base) := by
  have hfind : findHashAux (base ++ '#' :: ("sha256=".data ++ hex))
      = some ("sha256", String.mk hex) := by
    rw [findHashAux_append_skip base _ hbase]
    simp only [findHashAux, beq_self_eq_true, if_true,
      tryAlgAt_sha256 hex hne hhex]
  constructor
  · dsimp only [parseHtmlDistribution]
    rw [hfind]
  · dsimp only [parseHtmlDistribution]
    rw [takeWhile_append_hash base _ hbase]

/-- Witness for C7 at a concrete wheel URL. -/
theorem c7_html_hash_roundtrip_witness :
    (parseHtmlDistribution
        { linkTag := "<a href=\x22https://x/f.whl#sha256=abc123\x22>",
          href := String.mk
            ("https://x/f.whl".data ++ '#' :: ("sha256=".data ++ "abc123".data)),
          text := "f.whl" }).hashes
        = Json.obj [("sha256", Json.str (String.mk "abc123".data))]
    ∧ (parseHtmlDistribution
        { linkTag := "<a href=\x22https://x/f.whl#sha256=abc123\x22>",
          href := String.mk
            ("https://x/f.whl".data ++ '#' :: ("sha256=".data ++ "abc123".data)),
          text := "f.whl" }).url
        = Json.str (String.mk "https://x/f.whl".data) :=
  c7_html_hash_roundtrip "<a href=\x22https://x/f.whl#sha256=abc123\x22>"
    "f.whl" "https://x/f.whl".data "abc123".data (by decide) (by decide)
    (by decide)

theorem tryOneAlg_fst (alg : String) (cs : List Char) (r : String × String)
    (h : tryOneAlg alg cs = some r) : r.1 = alg := by
  unfold tryOneAlg at h
  split at h
  · dsimp only [] at h
    split at h
    · exact absurd h (by simp)
    · injection h with h2
      rw [← h2]
  · exact absurd h (by simp)

theorem tryAlgAt_fst (cs : List Char) (r : String × String)
    (h : tryAlgAt cs = some r) :
    r.1 = "sha256" ∨ r.1 = "md5" ∨ r.1 = "sha1" := by
  unfold tryAlgAt at h
  cases h1 : tryOneAlg "sha256" cs with
  | some r1 =>
      rw [h1] at h
      injection h with h2
      rw [← h2]
      exact Or.inl (tryOneAlg_fst _ _ _ h1)
  | none =>
      rw [h1] at h
      cases h2 : tryOneAlg "md5" cs with
      | some r2 =>
          rw [h2] at h
          injection h with h3
          rw [← h3]
          exact Or.inr (Or.inl (tryOneAlg_fst _ _ _ h2))
      | none =>
          rw [h2] at h
          exact Or.inr (Or.inr (tryOneAlg_fst _ _ _ h))

theorem findHashAux_alg :
    ∀ (cs : List Char) (r : String × String), findHashAux cs = some r →
      r.1 = "sha256" ∨ r.1 = "md5" ∨ r.1 = "sha1" := by
  intro cs
  induction cs with
  | nil => intro r h; simp [findHashAux] at h
  | cons c rest ih =>
      intro r h
      simp only [findHashAux] at h
      by_cases hc : (c == '#') = true
      · rw [if_pos hc] at h
        cases ha : tryAlgAt rest with
        | some r1 =>
            rw [ha] at h
            injection h with h2
            rw [← h2]
            exact tryAlgAt_fst rest r1 ha
        | none =>
            rw [ha] at h
            exact ih r h
      · rw [if_neg hc] at h
        exact ih r h

/-- The Simple-API JSON body of the C9 counterexample: a file entry whose
`hashes` field is JSON null. -/
def nullHashesBody : SimpleBody :=
  { json :=
      Json.obj
        [("files",
          Json.arr
            [Json.obj
              [("filename", Json.str "f.whl"), ("url", Json.str "u"),
               ("hashes", Json.null)]])],
    anchors := [] }

/-- C9 counterexample: on the JSON path, a file entry with `"hashes":
null` is carried through verbatim, so the produced `DistributionFile` has
a null `hashes` field — not a mapping, contradicting "never a null
value". -/
theorem c9_json_null_hashes_passthrough :
    get_package_distributions "demo" true (SimpleOutcome.success nullHashesBody)
      = Except.ok (some
          [{ filename := Json.str "f.whl", url := Json.str "u",
             packagetype := "bdist_wheel", size := Json.num 0,
             upload_time := Json.null, requires_python := Json.null,
             hashes := Json.null, yanked := Json.bool false,
             yanked_reason := Json.null }])
    ∧ ∀ fields : List (String × Json), (Json.null : Json) ≠ Json.obj fields := by
  refine ⟨by rfl, fun fields h => ?_⟩
  exact Json.noConfusion h

/-- C9 amended: the HTML path unconditionally yields a hash mapping whose
keys are among the lowercase identifiers sha256, md5, sha1 (empty when the
URL has no hash fragment, never null); the JSON path yields the empty
mapping when the `hashes` field is missing, but carries a present field —
including a null one — verbatim. -/
theorem c9_hashes_invariant :
    (∀ a : HtmlAnchor, ∃ l, (parseHtmlDistribution a).hashes = Json.obj l
        ∧ ∀ p ∈ l, p.1 = "sha256" ∨ p.1 = "md5" ∨ p.1 = "sha1")
    ∧ (∀ (fs : List (String × Json)) (df : DistributionFile),
        lookupJ fs "hashes" = none →
        parseJsonFileEntry (Json.obj fs) = Except.ok df →
        df.hashes = Json.obj []) := by
  constructor
  · intro a
    cases hf : findHashAux a.href.data with
    | none =>
        refine ⟨[], ?_, by intro p hp; cases hp⟩
        dsimp only [parseHtmlDistribution]
        rw [hf]
    | some r =>
        refine ⟨[(r.1, Json.str r.2)], ?_, ?_⟩
        · dsimp only [parseHtmlDistribution]
          rw [hf]
        · intro p hp
          rw [List.mem_singleton.mp hp]
          exact findHashAux_alg _ r hf
  · intro fs df hmiss hok
    simp only [parseJsonFileEntry, pyGet, Bind.bind, Except.bind] at hok
    cases hg : pyGuessPackagetype ((lookupJ fs "filename").getD (Json.str ""))
        with
    | error e => rw [hg] at hok; simp at hok
    | ok pt =>
        rw [hg] at hok
        simp only [Except.bind] at hok
        injection hok with h2
        rw [← h2]
        show (lookupJ fs "hashes").getD (Json.obj []) = Json.obj []
        rw [hmiss]
        rfl

/-- Witness for the amended C9 at a concrete hashless file entry. -/
theorem c9_hashes_invariant_witness :
    ({ filename := Json.str "f.whl", url := Json.str "",
       packagetype := "bdist_wheel", size := Json.num 0,
       upload_time := Json.null, requires_python := Json.null,
       hashes := Json.obj [], yanked := Json.bool false,
       yanked_reason := Json.null } : DistributionFile).hashes
      = Json.obj [] :=
  c9_hashes_invariant.2 [("filename", Json.str "f.whl")]
    { filename := Json.str "f.whl", url := Json.str "",
      packagetype := "bdist_wheel", size := Json.num 0,
      upload_time := Json.null, requires_python := Json.null,
      hashes := Json.obj [], yanked := Json.bool false,
      yanked_reason := Json.null }
    (by rfl) (by rfl)
